import Mathlib

set_option maxHeartbeats 1000000

/-!
Shallow embedding of the dozzle agent core: the docker log-event types
(`internal/docker/types.go`) and the agent gRPC server
(`internal/agent/server.go`, provided unnamed in the corpus), together with
proofs of the frozen claims about them.

Conventions of the embedding:
* Go `int64`/`int32` values are modelled as `Int` with explicit wrapping
  (`% 2^64`) applied exactly where Go's fixed-width arithmetic wraps.
* Go errors are modelled as `Except`/`Option` values; a gRPC
  `status.Error(code, msg)` becomes an explicitly tagged error, while a Go
  error returned without wrapping becomes a `raw` error.
* Channel-driven server loops are modelled as functions over the list of
  select-cases that fire, one list element per loop iteration.
-/

/-- A JSON value as produced by the log parser: `encoding/json` values with
object key order preserved (the source stores objects in an ordered map). -/
inductive JsonVal where
  | str (s : String)
  | num (n : Int)
  | jbool (b : Bool)
  | null
  | arr (elems : List JsonVal)
  | obj (fields : List (String × JsonVal))

/-- Lower-case hex digit, used for JSON `\u00XX` escapes. -/
def hexDigit (n : Nat) : Char :=
  if n < 10 then Char.ofNat (48 + n) else Char.ofNat (87 + n)

/-- Escaping of one character exactly as Go `encoding/json` does with HTML
escaping on (the default for `json.NewEncoder`): quote, backslash, the
newline/carriage-return/tab shortcuts, `<`, `>`, `&` as `\u00xx`, other
control characters as `\u00XX`, and U+2028/U+2029 as ` `/` `. -/
def jsonEscapeChar (c : Char) : String :=
  if c = '"' then "\\\""
  else if c = '\\' then "\\\\"
  else if c = '\n' then "\\n"
  else if c = '\r' then "\\r"
  else if c = '\t' then "\\t"
  else if c = '<' then "\\u003c"
  else if c = '>' then "\\u003e"
  else if c = '&' then "\\u0026"
  else if c.toNat < 32 then
    "\\u00" ++ String.mk [hexDigit (c.toNat / 16), hexDigit (c.toNat % 16)]
  else if c.toNat = 8232 then "\\u2028"
  else if c.toNat = 8233 then "\\u2029"
  else String.mk [c]

/-- JSON string-body escaping (applied between the surrounding quotes). -/
def jsonEscape (s : String) : String :=
  String.join (s.data.map jsonEscapeChar)

mutual

/-- Serialization of a JSON value, matching Go `encoding/json` output for the
ordered-map representation: object fields appear in stored (insertion) order. -/
def jsonEncodeVal : JsonVal → String
  | .str s => "\"" ++ jsonEscape s ++ "\""
  | .num n => toString n
  | .jbool b => if b then "true" else "false"
  | .null => "null"
  | .arr elems => "[" ++ jsonEncodeList elems ++ "]"
  | .obj fields => "\x7b" ++ jsonEncodeFields fields ++ "\x7d"

/-- Comma-separated serialization of a JSON array body. -/
def jsonEncodeList : List JsonVal → String
  | [] => ""
  | [v] => jsonEncodeVal v
  | v :: rest => jsonEncodeVal v ++ "," ++ jsonEncodeList rest

/-- Comma-separated serialization of a JSON object body, keys in list order. -/
def jsonEncodeFields : List (String × JsonVal) → String
  | [] => ""
  | [(k, v)] => "\"" ++ jsonEscape k ++ "\":" ++ jsonEncodeVal v
  | (k, v) :: rest =>
      "\"" ++ jsonEscape k ++ "\":" ++ jsonEncodeVal v ++ "," ++ jsonEncodeFields rest

end

-- ===== internal/docker/types.go =====

/-- `docker.ContainerStat` — one point-in-time resource sample. The Go
`float64` percentages are modelled as integers; no claim concerns their
numeric values, only that stats are carried through unchanged. -/
structure ContainerStat where
  ID : String
  CPUPercent : Int
  MemoryPercent : Int
  MemoryUsage : Int
deriving DecidableEq

/-- `docker.Container` — the store's record of one container. `time.Time`
fields are Unix seconds; `Stats *utils.RingBuffer[ContainerStat]` is modelled
by its `Data()` snapshot, which is all the agent server reads from it. -/
structure Container where
  ID : String
  Name : String
  Image : String
  ImageID : String
  Command : String
  Created : Int
  StartedAt : Int
  State : String
  Health : String
  Host : String
  Tty : Bool
  Labels : List (String × String)
  Stats : List ContainerStat
  Group : String
deriving DecidableEq

/-- `docker.ContainerAction` — the three accepted runtime commands
(`Start = "start"`, `Stop = "stop"`, `Restart = "restart"`). -/
inductive DockerAction where
  | start
  | stop
  | restart
deriving DecidableEq

/-- `docker.ParseContainerAction`: accept exactly the three constant strings,
otherwise fail with `unknown action: <input>`. -/
def ParseContainerAction (input : String) : Except String DockerAction :=
  if input = "start" then .ok .start
  else if input = "stop" then .ok .stop
  else if input = "restart" then .ok .restart
  else .error ("unknown action: " ++ input)

/-- The dynamic `Message any` payload of a `docker.LogEvent`, restricted to
the three types the agent's `logEventToPb` handles: a plain string,
`*orderedmap.OrderedMap[string, any]`, and
`*orderedmap.OrderedMap[string, string]`. Ordered maps are modelled as
key/value lists in insertion order. (On any other dynamic type the Go agent
aborts the process via `log.Fatalf`; that case is outside the value model.) -/
inductive LogMessage where
  | str (s : String)
  | orderedAny (fields : List (String × JsonVal))
  | orderedStr (fields : List (String × String))

/-- `docker.LogEvent` — one structured log line. `Timestamp` is the Go
`int64` Unix-seconds value, modelled as `Int`; all arithmetic on it below
applies 64-bit wrapping exactly where Go does. -/
structure LogEvent where
  Message : LogMessage
  Timestamp : Int
  Id : Nat
  Level : String
  Position : String
  Stream : String
  ContainerID : String

/-- `LogEvent.HasLevel`: `l.Level != ""`. -/
def LogEvent.HasLevel (l : LogEvent) : Bool :=
  l.Level != ""

/-- Reduction of an integer into the `int64` range `[-2^63, 2^63)`, i.e. the
value a wrapping Go `int64` computation produces. -/
def wrap64 (x : Int) : Int :=
  (x + 2 ^ 63) % 2 ^ 64 - 2 ^ 63

/-- `LogEvent.IsCloseToTime`: Go computes
`math.Abs(float64(l.Timestamp - other.Timestamp)) < 10`. The subtraction is
wrapping `int64` arithmetic, hence `wrap64`. For an `int64` value `d`,
`math.Abs(float64(d)) < 10` is equivalent to `|d| < 10` on the integers:
the conversion to `float64` is exact for `|d| ≤ 9`, and rounds any integer of
magnitude at least 10 to a float of magnitude at least 10. -/
def LogEvent.IsCloseToTime (l other : LogEvent) : Bool :=
  decide ((wrap64 (l.Timestamp - other.Timestamp)).natAbs < 10)

-- ===== protobuf wire shapes (internal/agent/pb) =====

/-- The wire payload of a `pb.LogEvent` message: either a `pb.SimpleMessage`
(a plain string) or a `pb.ComplexMessage` (pre-serialized JSON bytes of an
ordered map), packed into an `anypb.Any`. The two protobuf message types are
the two constructors. -/
inductive PbMessage where
  | simple (message : String)
  | complex (data : String)
deriving DecidableEq

/-- `pb.LogEvent` as built by the agent. `Timestamp` keeps Unix seconds
(the Go code wraps them in `timestamppb.New (time.Unix (ts, 0))`). -/
structure PbLogEvent where
  Message : PbMessage
  Timestamp : Int
  Id : Nat
  ContainerId : String
  Level : String
  Stream : String
  Position : String

/-- `pb.Container` as built by the agent's unary responses. -/
structure PbContainer where
  Id : String
  Name : String
  Image : String
  ImageId : String
  Command : String
  Created : Int
  State : String
  Health : String
  Host : String
  Tty : Bool
  Labels : List (String × String)
  Group : String
  Started : Int
  Stats : List ContainerStat
deriving DecidableEq

/-- `pb.Host` as built by `HostInfo`. -/
structure PbHost where
  Id : String
  Name : String
  CpuCores : Nat
  Memory : Nat
  DockerVersion : String
  AgentVersion : String
deriving DecidableEq

/-- The `pb.ContainerAction` wire enum. Proto3 enums are open: a request may
carry any integer, so besides the three declared values there is an
`unrecognized` case for every other wire value. -/
inductive PbContainerAction where
  | start
  | stop
  | restart
  | unrecognized (n : Int)
deriving DecidableEq

-- ===== the agent gRPC server (internal/agent, unnamed source file) =====

/-- The gRPC status codes the agent server uses. -/
inductive GrpcCode where
  | notFound
  | invalidArgument
  | internal
deriving DecidableEq

/-- An error returned by a unary agent operation: either a classified gRPC
status (`status.Error(code, msg)` in the source) or a Go error value returned
to the framework without classification (`return nil, err`). -/
inductive AgentError where
  | grpc (code : GrpcCode) (msg : String)
  | raw (msg : String)
deriving DecidableEq

/-- Whether an agent error was classified into the gRPC status taxonomy. -/
def AgentError.isClassified : AgentError → Bool
  | .grpc _ _ => true
  | .raw _ => false

/-- The gRPC status code of a unary result, when the result is a classified
error. -/
def resultCode {α : Type} : Except AgentError α → Option GrpcCode
  | .error (.grpc c _) => some c
  | _ => none

/-- `orderedMapToJSONBytes`: serialize the ordered map through
`json.NewEncoder(&bytes).Encode(data)`. The ordered map marshals as a JSON
object with fields in insertion order, and `Encoder.Encode` appends a
newline. The result is modelled as the decoded byte string. -/
def orderedMapToJSONBytes (fields : List (String × JsonVal)) : String :=
  jsonEncodeVal (.obj fields) ++ "\n"

/-- `logEventToPb`: convert a `docker.LogEvent` to its wire message. A
string message becomes a `pb.SimpleMessage`; either ordered-map type becomes
a `pb.ComplexMessage` carrying `orderedMapToJSONBytes` of the map (for the
string-valued map, the values marshal as JSON strings). -/
def logEventToPb (event : LogEvent) : PbLogEvent :=
  let message : PbMessage :=
    match event.Message with
    | .str data => .simple data
    | .orderedAny data => .complex (orderedMapToJSONBytes data)
    | .orderedStr data =>
        .complex (orderedMapToJSONBytes
          (data.map (fun p => (p.1, JsonVal.str p.2))))
  { Message := message
    Timestamp := event.Timestamp
    Id := event.Id
    ContainerId := event.ContainerID
    Level := event.Level
    Stream := event.Stream
    Position := event.Position }

/-- The `pb.Container` literal built by `server.FindContainer` (it does not
populate `Stats`, whose protobuf zero value is the empty list). -/
def findContainerToPb (c : Container) : PbContainer :=
  { Id := c.ID
    Name := c.Name
    Image := c.Image
    ImageId := c.ImageID
    Command := c.Command
    Created := c.Created
    State := c.State
    Health := c.Health
    Host := c.Host
    Tty := c.Tty
    Labels := c.Labels
    Group := c.Group
    Started := c.StartedAt
    Stats := [] }

/-- The `pb.Container` literal built by `server.ListContainers`, which also
copies the stat ring-buffer snapshot. -/
def listContainerToPb (c : Container) : PbContainer :=
  { findContainerToPb c with Stats := c.Stats }

/-- `server.FindContainer`: look the id up in the store; a store error is
returned as `status.Error(codes.NotFound, err.Error())`. The store itself is
abstracted as the function giving `FindContainer`'s result per id. -/
def serverFindContainer (store : String → Except String Container)
    (containerId : String) : Except AgentError PbContainer :=
  match store containerId with
  | .error e => .error (.grpc .notFound e)
  | .ok c => .ok (findContainerToPb c)

/-- `server.ListContainers`: list the store; on a store error the Go code is
`return nil, err` — the error is handed back to the framework raw, without a
`status.Error` classification. -/
def serverListContainers (storeList : Except String (List Container)) :
    Except AgentError (List PbContainer) :=
  match storeList with
  | .error e => .error (.raw e)
  | .ok cs => .ok (cs.map listContainerToPb)

/-- The host metadata the runtime client reports (`docker.Host`, an external
collaborator; only the fields `HostInfo` reads are modelled). -/
structure DockerHost where
  ID : String
  Name : String
  NCPU : Int
  MemTotal : Int
  DockerVersion : String

/-- `server.HostInfo`: always succeeds, converting the client's host record;
`uint32(NCPU)` and `uint64(MemTotal)` are Go integer conversions, which wrap. -/
def serverHostInfo (host : DockerHost) (version : String) :
    Except AgentError PbHost :=
  .ok
    { Id := host.ID
      Name := host.Name
      CpuCores := (host.NCPU % 2 ^ 32).toNat
      Memory := (host.MemTotal % 2 ^ 64).toNat
      DockerVersion := host.DockerVersion
      AgentVersion := version }

/-- The wire-enum switch at the head of `server.ContainerAction`: the three
declared values map to the docker actions, everything else falls to the
`default` branch. -/
def pbActionToDocker : PbContainerAction → Option DockerAction
  | .start => some .start
  | .stop => some .stop
  | .restart => some .restart
  | .unrecognized _ => none

/-- `server.ContainerAction`. The runtime client's
`ContainerActions(action, id)` call is abstracted as a function giving the
error message it fails with (or `none` on success). Besides the result, the
model returns the list of client calls made, so that "the runtime client is
not invoked" is expressible: an unrecognized action returns
`codes.InvalidArgument` with an empty call list; a client failure is wrapped
as `codes.Internal` with the client's message. -/
def serverContainerAction
    (clientActions : DockerAction → String → Option String)
    (action : PbContainerAction) (containerId : String) :
    Except AgentError Unit × List (DockerAction × String) :=
  match pbActionToDocker action with
  | none => (.error (.grpc .invalidArgument "invalid action"), [])
  | some a =>
    match clientActions a containerId with
    | some msg => (.error (.grpc .internal msg), [(a, containerId)])
    | none => (.ok (), [(a, containerId)])

/-- The Unix-seconds value of Go's zero `time.Time` (January 1, year 1 UTC),
the value `server.StreamLogs` initializes `since` with. -/
def goZeroTimeUnix : Int := -62135596800

/-- The `since` argument `server.StreamLogs` passes to the runtime client's
`ContainerLogs` read: the request's `Since` if set, otherwise the zero
`time.Time`. `callTime` is the wall-clock instant of the call; the source
never reads the clock, so the result cannot depend on it. -/
def streamLogsPassedSince (reqSince : Option Int) (_callTime : Int) : Int :=
  match reqSince with
  | some t => t
  | none => goZeroTimeUnix

-- ===== streaming loops =====

/-- One iteration of the `for`/`select` loop in `server.LogsBetweenDates`:
the select case that fired. `event` is a receive on the generator's `Events`
channel, `genError` a receive on its `Errors` channel, `cancelled` the
`out.Context().Done()` case. -/
inductive GenItem where
  | event (e : LogEvent)
  | genError (msg : String)
  | cancelled

/-- The result of running a server streaming loop on a schedule of fired
select cases: `ok` models `return nil` (success), `fail` models returning a
non-nil error, and `blocked` marks a schedule on which no select case ever
fires again, so the handler never returns. `sent` is the sequence of wire
messages sent before termination. -/
inductive StreamOutcome where
  | ok (sent : List PbLogEvent)
  | fail (msg : String) (sent : List PbLogEvent)
  | blocked (sent : List PbLogEvent)

/-- The `for { select { ... } }` loop of `server.LogsBetweenDates`: an
`Events` receive sends the converted event and loops; an `Errors` receive is
`return e`; context cancellation is `return nil`. -/
def logsBetweenDatesLoop : List GenItem → List PbLogEvent → StreamOutcome
  | [], sent => .blocked sent
  | .event e :: rest, sent => logsBetweenDatesLoop rest (sent ++ [logEventToPb e])
  | .genError m :: _, sent => .fail m sent
  | .cancelled :: _, sent => .ok sent

/-- Modelled from the spec: the Event Generator (its source is not under
`src/`; only its caller is) "produces an ordered sequence of structured log
events and surfaces terminal stream errors", and "on a read error other than
clean EOF ... surfaces exactly one error on its error output" (§4.3) — so a
session that exhausts its bounded source cleanly delivers its events, in
order, and surfaces no error; the only select case that can fire afterwards
is the caller's cancellation. `exhaustedSchedule events` is the schedule of
such a session as observed by the `LogsBetweenDates` loop. -/
def exhaustedSchedule (events : List LogEvent) : List GenItem :=
  events.map GenItem.event ++ [GenItem.cancelled]

-- ===== server.StreamRawBytes =====

/-- What one `reader.Read(buf)` call returns: the bytes placed in the buffer
(`n = data.length`) and the error value. -/
structure ReadStep where
  data : List Nat
  err : Option String

/-- The buffer size of `server.StreamRawBytes`: `buf := make([]byte, 1024)`,
so a single read returns at most 1024 bytes. -/
def bufSize : Nat := 1024

/-- Result of the `StreamRawBytes` loop: `ok` is `return nil`, `fail` is
returning a read or send error, `starved` marks a reader that blocks forever
(its trace ran out), in which case the handler never returns. `sent` collects
the chunks sent, one list element per wire message. -/
inductive RawOutcome where
  | ok (sent : List (List Nat))
  | fail (msg : String) (sent : List (List Nat))
  | starved (sent : List (List Nat))

/-- The read/send loop of `server.StreamRawBytes`, run over the trace of
read results. Exactly as in the source: a non-nil read error returns it
(before looking at the data); `n == 0` breaks out and returns nil; otherwise
`buf[:n]` is sent as one message, a send error returning it. `sendErr k` is
the error of the `k`-th send attempt (`none` = delivered). -/
def streamRawBytesLoop (sendErr : Nat → Option String) :
    List ReadStep → List (List Nat) → RawOutcome
  | [], sent => .starved sent
  | step :: rest, sent =>
    match step.err with
    | some m => .fail m sent
    | none =>
      if step.data.length = 0 then .ok sent
      else
        match sendErr sent.length with
        | some m => .fail m sent
        | none => streamRawBytesLoop sendErr rest (sent ++ [step.data])

-- ===== helper lemmas =====

/-- Absolute value of the wrapped difference is insensitive to negating the
argument: either the two wraps are exact negatives, or both sit at the
unrepresentable midpoint `-2^63`. -/
theorem wrap64_neg_natAbs (x : Int) : (wrap64 (-x)).natAbs = (wrap64 x).natAbs := by
  unfold wrap64
  have h63 : (2 : Int) ^ 63 = 9223372036854775808 := by norm_num
  have h64 : (2 : Int) ^ 64 = 18446744073709551616 := by norm_num
  rw [h63, h64]
  omega

/-- Running the `LogsBetweenDates` loop over a prefix of pure event receives
appends their conversions to the sent list. -/
theorem logsBetweenDatesLoop_events (events : List LogEvent) :
    ∀ (sched : List GenItem) (sent : List PbLogEvent),
      logsBetweenDatesLoop (events.map GenItem.event ++ sched) sent
        = logsBetweenDatesLoop sched (sent ++ events.map logEventToPb) := by
  induction events with
  | nil => intro sched sent; simp
  | cons e rest ih =>
      intro sched sent
      simp only [List.map_cons, List.cons_append, logsBetweenDatesLoop, List.append_eq]
      rw [ih]
      simp

/-- Running the `StreamRawBytes` loop over a prefix of clean, non-empty,
successfully sent reads forwards each read's bytes as one chunk. -/
theorem streamRawBytesLoop_clean_prefix (sendErr : Nat → Option String) :
    ∀ (pre rest : List ReadStep) (sent : List (List Nat)),
      (∀ s ∈ pre, s.err = none ∧ s.data ≠ []) →
      (∀ k, sent.length ≤ k → k < sent.length + pre.length → sendErr k = none) →
      streamRawBytesLoop sendErr (pre ++ rest) sent
        = streamRawBytesLoop sendErr rest (sent ++ pre.map (fun s => s.data)) := by
  intro pre
  induction pre with
  | nil => intro rest sent _ _; simp
  | cons s pre ih =>
      intro rest sent hpre hsend
      have hs := hpre s (List.mem_cons_self s pre)
      have hlen : s.data.length ≠ 0 := by
        intro h0
        exact hs.2 (List.eq_nil_of_length_eq_zero h0)
      have hsend0 : sendErr sent.length = none := by
        refine hsend sent.length (Nat.le_refl _) ?_
        simp [Nat.lt_add_of_pos_right, Nat.succ_pos]
      simp only [List.cons_append, streamRawBytesLoop, hs.1, hlen, if_false,
        List.append_eq, hsend0]
      rw [ih rest (sent ++ [s.data])
        (fun t ht => hpre t (List.mem_cons_of_mem s ht))
        (by
          intro k hk1 hk2
          refine hsend k ?_ ?_ <;> simp at hk1 hk2 ⊢ <;> omega)]
      simp

-- ===== the claims =====

/-- C1: `logEventToPb` keeps the plain-string/structured distinction — a
string message becomes the simple-message wire shape carrying the string, an
ordered-map message becomes the complex-message wire shape carrying the
pre-serialized ordered JSON bytes, and the two shapes never coincide. -/
theorem logEventToPb_message_shape (e : LogEvent) :
    (∀ s, e.Message = .str s → (logEventToPb e).Message = PbMessage.simple s)
    ∧ (∀ m, e.Message = .orderedAny m →
        (logEventToPb e).Message = PbMessage.complex (orderedMapToJSONBytes m))
    ∧ (∀ m, e.Message = .orderedStr m →
        (logEventToPb e).Message
          = PbMessage.complex
              (orderedMapToJSONBytes (m.map (fun p => (p.1, JsonVal.str p.2)))))
    ∧ (∀ s d, PbMessage.simple s ≠ PbMessage.complex d) := by
  refine ⟨?_, ?_, ?_, ?_⟩
  · intro s hs; simp [logEventToPb, hs]
  · intro m hm; simp [logEventToPb, hm]
  · intro m hm; simp [logEventToPb, hm]
  · intro s d h; exact PbMessage.noConfusion h

/-- Witness for C1 at concrete events: a string payload and a one-field
ordered map, with the complex payload's JSON bytes computed explicitly. -/
theorem logEventToPb_message_shape_witness :
    (logEventToPb ⟨.str "hello", 0, 0, "", "", "", ""⟩).Message
        = PbMessage.simple "hello"
    ∧ (logEventToPb ⟨.orderedAny [("b", .num 1)], 0, 0, "", "", "", ""⟩).Message
        = PbMessage.complex "\x7b\"b\":1\x7d\n" := by
  refine ⟨(logEventToPb_message_shape _).1 "hello" rfl, ?_⟩
  rw [(logEventToPb_message_shape _).2.1 [("b", .num 1)] rfl]
  rfl

/-- C2 counterexample: a `restart` request for an id the runtime client
rejects (no such container) is answered with `codes.Internal`, not
`codes.NotFound` — the server wraps every client error as internal and never
consults the store in `ContainerAction`. -/
theorem containerAction_restart_missing_id_internal_not_notFound :
    resultCode (serverContainerAction
        (fun _ _ => some "Error response from daemon: No such container: bad-id")
        .restart "bad-id").1 = some GrpcCode.internal
    ∧ resultCode (serverContainerAction
        (fun _ _ => some "Error response from daemon: No such container: bad-id")
        .restart "bad-id").1 ≠ some GrpcCode.notFound := by
  exact ⟨rfl, by decide⟩

/-- C2 amended: a `restart` for a container id on which the runtime client
fails (for instance because no such container exists) returns an internal
condition carrying the client's error message; the agent performs no
missing-container check of its own and never maps this to not-found. -/
theorem containerAction_restart_client_error_internal
    (clientActions : DockerAction → String → Option String) (id msg : String)
    (h : clientActions .restart id = some msg) :
    (serverContainerAction clientActions .restart id).1
      = .error (.grpc .internal msg) := by
  simp [serverContainerAction, pbActionToDocker, h]

/-- Witness for the amended C2 at a concrete failing client. -/
theorem containerAction_restart_client_error_internal_witness :
    (serverContainerAction (fun _ _ => some "no such container: bad-id")
        .restart "bad-id").1
      = .error (.grpc .internal "no such container: bad-id") :=
  containerAction_restart_client_error_internal
    (fun _ _ => some "no such container: bad-id") "bad-id"
    "no such container: bad-id" rfl

/-- C3 counterexample: with `e1.Timestamp = 2^63 - 1` and
`e2.Timestamp = -2^63`, the wrapping `int64` subtraction yields `-1`, so
`IsCloseToTime` returns `true` although the absolute difference of the two
timestamps is `2^64 - 1`, far above 10 — the claimed characterization by the
mathematical difference fails at overflow. -/
theorem isCloseToTime_overflow_counterexample :
    LogEvent.IsCloseToTime
        ⟨.str "", 9223372036854775807, 0, "", "", "", ""⟩
        ⟨.str "", -9223372036854775808, 0, "", "", "", ""⟩ = true
    ∧ ¬ ((9223372036854775807 - (-9223372036854775808 : Int)).natAbs < 10) := by
  exact ⟨by decide, by decide⟩

/-- C3 amended: whenever the timestamp difference does not overflow `int64`
(in particular for all realistic log timestamps), `IsCloseToTime` is true
exactly when the absolute difference is strictly below 10; a difference of
exactly 10 yields false. At overflow the wrapped difference decides instead. -/
theorem isCloseToTime_iff_in_range (e1 e2 : LogEvent)
    (h1 : -(2 ^ 63) ≤ e1.Timestamp - e2.Timestamp)
    (h2 : e1.Timestamp - e2.Timestamp < 2 ^ 63) :
    (LogEvent.IsCloseToTime e1 e2 = true
        ↔ (e1.Timestamp - e2.Timestamp).natAbs < 10)
    ∧ ((e1.Timestamp - e2.Timestamp).natAbs = 10
        → LogEvent.IsCloseToTime e1 e2 = false) := by
  have hw : wrap64 (e1.Timestamp - e2.Timestamp) = e1.Timestamp - e2.Timestamp := by
    unfold wrap64
    have h63 : (2 : Int) ^ 63 = 9223372036854775808 := by norm_num
    have h64 : (2 : Int) ^ 64 = 18446744073709551616 := by norm_num
    rw [h63, h64] at *
    omega
  constructor
  · simp [LogEvent.IsCloseToTime, hw]
  · intro h10
    simp [LogEvent.IsCloseToTime, hw, h10]

/-- Witness for the amended C3: timestamps 25 and 15 differ by exactly 10,
and `IsCloseToTime` is false there. -/
theorem isCloseToTime_iff_in_range_witness :
    LogEvent.IsCloseToTime
        ⟨.str "", 25, 0, "", "", "", ""⟩ ⟨.str "", 15, 0, "", "", "", ""⟩ = false :=
  (isCloseToTime_iff_in_range
      ⟨.str "", 25, 0, "", "", "", ""⟩ ⟨.str "", 15, 0, "", "", "", ""⟩
      (by norm_num) (by norm_num)).2 (by norm_num)

/-- C4: an action outside start/stop/restart is rejected with
`codes.InvalidArgument` and an empty runtime-client call trace (the client is
not invoked); a recognized action on which the client fails returns
`codes.Internal` carrying the client's own error message. -/
theorem containerAction_validation_and_internal
    (clientActions : DockerAction → String → Option String) (id : String) :
    (∀ n, serverContainerAction clientActions (.unrecognized n) id
        = (.error (.grpc .invalidArgument "invalid action"), []))
    ∧ (∀ act a msg, pbActionToDocker act = some a →
        clientActions a id = some msg →
        serverContainerAction clientActions act id
          = (.error (.grpc .internal msg), [(a, id)])) := by
  constructor
  · intro n; rfl
  · intro act a msg ha hc
    simp [serverContainerAction, ha, hc]

/-- Witness for C4: a concrete unrecognized wire value (7) and a concrete
failing stop command. -/
theorem containerAction_validation_and_internal_witness :
    serverContainerAction (fun _ _ => some "boom") (.unrecognized 7) "c1"
        = (.error (.grpc .invalidArgument "invalid action"), [])
    ∧ serverContainerAction (fun _ _ => some "boom") .stop "c1"
        = (.error (.grpc .internal "boom"), [(DockerAction.stop, "c1")]) :=
  ⟨(containerAction_validation_and_internal (fun _ _ => some "boom") "c1").1 7,
   (containerAction_validation_and_internal (fun _ _ => some "boom") "c1").2
      .stop .stop "boom" rfl rfl⟩

/-- C5 counterexample: when the store's listing fails, `server.ListContainers`
is `return nil, err` — the error goes back to the framework raw, with no
gRPC status classification, so not every unary operation maps its errors into
the not-found/invalid-argument/internal taxonomy. -/
theorem listContainers_error_unclassified :
    serverListContainers (.error "store not initialized")
        = .error (.raw "store not initialized")
    ∧ AgentError.isClassified (.raw "store not initialized") = false :=
  ⟨rfl, rfl⟩

/-- C5 amended: `FindContainer` classifies every store failure as not-found,
`HostInfo` cannot fail, and `ContainerAction` only ever returns classified
invalid-argument/internal errors; `ListContainers`, however, passes the
store's error through unclassified. -/
theorem unary_error_taxonomy
    (store : String → Except String Container) (id : String)
    (host : DockerHost) (version : String)
    (clientActions : DockerAction → String → Option String)
    (act : PbContainerAction) (e : String) :
    (store id = .error e →
        serverFindContainer store id = .error (.grpc .notFound e))
    ∧ (∃ r, serverHostInfo host version = .ok r)
    ∧ ((match (serverContainerAction clientActions act id).1 with
        | .error err => err.isClassified
        | .ok _ => true) = true)
    ∧ serverListContainers (.error e) = .error (.raw e)
    ∧ AgentError.isClassified (.raw e) = false := by
  refine ⟨?_, ⟨_, rfl⟩, ?_, rfl, rfl⟩
  · intro he
    simp [serverFindContainer, he]
  · cases act with
    | unrecognized n => rfl
    | start =>
        cases h : clientActions .start id <;>
          simp [serverContainerAction, pbActionToDocker, h, AgentError.isClassified]
    | stop =>
        cases h : clientActions .stop id <;>
          simp [serverContainerAction, pbActionToDocker, h, AgentError.isClassified]
    | restart =>
        cases h : clientActions .restart id <;>
          simp [serverContainerAction, pbActionToDocker, h, AgentError.isClassified]

/-- Witness for the amended C5 with a concretely failing store. -/
theorem unary_error_taxonomy_witness :
    serverFindContainer (fun _ => .error "no container found") "c1"
      = .error (.grpc .notFound "no container found") :=
  (unary_error_taxonomy (fun _ => .error "no container found") "c1"
      ⟨"h1", "host", 4, 1024, "27.0"⟩ "8.0" (fun _ _ => none)
      .start "no container found").1 rfl

/-- C6 counterexample: a `StreamLogs` request with `Since` unset, arriving at
wall-clock time 1700000000, does not pass that call time to the runtime
client's log read — the source initializes `since` to the zero `time.Time`
and never reads the clock. -/
theorem streamLogs_unset_since_not_call_time :
    streamLogsPassedSince none 1700000000 ≠ 1700000000 := by decide

/-- C6 amended: when `Since` is unset, `StreamLogs` passes the zero
`time.Time` (Unix −62135596800) — a fixed sentinel whose interpretation is
left to the runtime client — rather than the time of the call; when `Since`
is set, its value is passed through unchanged. -/
theorem streamLogs_since_selection (t u : Int) :
    streamLogsPassedSince none t = goZeroTimeUnix
    ∧ streamLogsPassedSince (some u) t = u :=
  ⟨rfl, rfl⟩

/-- C7: a `LogsBetweenDates` session whose source is exhausted without a
terminal error (the spec-modelled generator surfaces no error on clean EOF)
ends as a success — `return nil` — with exactly the generated events sent, in
order; in particular a session with zero events in range completes
successfully rather than erroring. -/
theorem logsBetweenDates_exhausted_success (events : List LogEvent)
    (sched : List GenItem) (h : sched = exhaustedSchedule events) :
    logsBetweenDatesLoop sched [] = .ok (events.map logEventToPb) := by
  subst h
  unfold exhaustedSchedule
  rw [logsBetweenDatesLoop_events]
  simp [logsBetweenDatesLoop]

/-- Witness for C7: the empty session — zero events in range — completes as
`ok` with nothing sent. -/
theorem logsBetweenDates_exhausted_success_witness :
    logsBetweenDatesLoop [GenItem.cancelled] [] = StreamOutcome.ok [] := by
  simpa using logsBetweenDates_exhausted_success [] [GenItem.cancelled] rfl

/-- C8: `StreamRawBytes` forwards each successful read — at most 1024 bytes,
the fixed buffer size — as one wire message; a read returning zero bytes with
no error ends the stream successfully with exactly the chunks read so far,
while a read error or a send error terminates the stream with that error (and
the chunks sent so far), never with a silent success. -/
theorem streamRawBytes_chunks_and_termination (sendErr : Nat → Option String)
    (pre rest : List ReadStep) (final : ReadStep)
    (hpre : ∀ s ∈ pre, s.err = none ∧ s.data ≠ [])
    (hsend : ∀ k, k < pre.length → sendErr k = none)
    (hchunk : ∀ s ∈ pre, s.data.length ≤ bufSize) :
    (final.err = none → final.data = [] →
        streamRawBytesLoop sendErr (pre ++ final :: rest) []
          = .ok (pre.map (fun s => s.data)))
    ∧ (∀ m, final.err = some m →
        streamRawBytesLoop sendErr (pre ++ final :: rest) []
          = .fail m (pre.map (fun s => s.data)))
    ∧ (∀ m, final.err = none → final.data ≠ [] → sendErr pre.length = some m →
        streamRawBytesLoop sendErr (pre ++ final :: rest) []
          = .fail m (pre.map (fun s => s.data)))
    ∧ (∀ c ∈ pre.map (fun s => s.data), c.length ≤ bufSize ∧ c ≠ []) := by
  have hsend0 : ∀ k, ([] : List (List Nat)).length ≤ k →
      k < ([] : List (List Nat)).length + pre.length → sendErr k = none := by
    intro k _ hk
    exact hsend k (by simpa using hk)
  have hrw := streamRawBytesLoop_clean_prefix sendErr pre (final :: rest) [] hpre hsend0
  rw [List.nil_append] at hrw
  have hplen : (pre.map (fun s => s.data)).length = pre.length := by simp
  refine ⟨?_, ?_, ?_, ?_⟩
  · intro he hd
    rw [hrw]
    simp [streamRawBytesLoop, he, hd]
  · intro m hm
    rw [hrw]
    simp [streamRawBytesLoop, hm]
  · intro m he hd hsf
    have hlen : final.data.length ≠ 0 := fun h0 => hd (List.eq_nil_of_length_eq_zero h0)
    rw [hrw]
    simp [streamRawBytesLoop, he, hlen, hplen, hsf]
  · intro c hc
    rcases List.mem_map.mp hc with ⟨s, hs, rfl⟩
    exact ⟨hchunk s hs, (hpre s hs).2⟩

/-- Witness for C8: one 3-byte read followed by the clean end-of-source read
ends with `ok` and the single chunk sent. -/
theorem streamRawBytes_chunks_and_termination_witness :
    streamRawBytesLoop (fun _ => none)
        [⟨[1, 2, 3], none⟩, ⟨[], none⟩] [] = RawOutcome.ok [[1, 2, 3]] := by
  have h := (streamRawBytes_chunks_and_termination (fun _ => none)
      [⟨[1, 2, 3], none⟩] [] ⟨[], none⟩
      (by
        intro s hs
        rw [List.mem_singleton] at hs
        subst hs
        exact ⟨rfl, by decide⟩)
      (fun k _ => rfl)
      (by
        intro s hs
        rw [List.mem_singleton] at hs
        subst hs
        decide)).1 rfl rfl
  simpa using h

/-- C9: `HasLevel` holds exactly when the extracted `Level` is a non-empty
string; an event with no extracted level reports `false`. -/
theorem hasLevel_iff_nonempty (e : LogEvent) :
    e.HasLevel = true ↔ e.Level ≠ "" := by
  simp [LogEvent.HasLevel]

/-- C10: `IsCloseToTime` is symmetric — the wrapped 64-bit difference of the
two timestamps has the same absolute value in either direction (the two wraps
are exact negatives, except at the midpoint `-2^63` where they coincide). -/
theorem isCloseToTime_symm (e1 e2 : LogEvent) :
    e1.IsCloseToTime e2 = e2.IsCloseToTime e1 := by
  unfold LogEvent.IsCloseToTime
  have h : e2.Timestamp - e1.Timestamp = -(e1.Timestamp - e2.Timestamp) := by ring
  rw [h, wrap64_neg_natAbs]
